import Mathlib

/-!
# Hello-World HTTP server (`main.go`)

A shallow embedding of `func main()` and of the request handler it registers.

The program is a straight-line sequence of calls into libraries (`godotenv`,
`os`, `log`, `fmt`, `net/http`).  The embedding keeps the statement order of
`main` and makes every effect explicit:

* the process state (`Proc`) holds the environment, the default multiplexer and
  the ordered trace of observable events;
* what the outside world decides (the initial environment, the result of reading
  `.env`, the behaviour of the listener) is the input `World`;
* `log.Fatal` ends the run with `os.Exit(1)`, a blocked accept loop ends it in
  `Result.blocked`, and a statement that completes yields `Result.ok`.

Go strings are modelled by `String`; every character the modelled code inspects
(`%`, `/`, `.`, `=`, NUL) is ASCII, so scanning characters and scanning bytes agree.
-/

namespace HelloServer

/-! ## Package `fmt`: formatting with string operands -/

/-- The text `fmt` emits when a verb has no operand left, `%!v(MISSING)`. -/
def fmtMissing (verb : Char) : List Char :=
  ['%', '!', verb, '(', 'M', 'I', 'S', 'S', 'I', 'N', 'G', ')']

/-- The text `fmt` emits for a verb that is not defined for a string operand,
`%!d(string=abc)`. -/
def fmtBadVerb (verb : Char) (arg : String) : List Char :=
  ['%', '!', verb, '('] ++ "string=".data ++ arg.data ++ [')']

/-- The text `fmt` appends for operands no verb consumed,
`%!(EXTRA string=a, string=b)`. -/
def fmtExtra : List String → List Char
  | [] => []
  | a :: rest =>
    "%!(EXTRA ".data ++ "string=".data ++ a.data
      ++ (rest.map fun b => ", string=".data ++ b.data).flatten ++ [')']

/-- The scanning loop of `doPrintf`, for string operands and the verbs `%%`, `%s`
and `%v`: text up to the next `%` is copied; `%%` prints a percent sign; `%s` and
`%v` print the next operand verbatim; a verb with no operand left prints
`%!verb(MISSING)`; a `%` that ends the format prints `%!(NOVERB)`; operands left
over at the end, also after such a `%`, are reported as `%!(EXTRA ...)`.  Flags, width, precision, argument
indexes and the other string verbs (`q`, `x`, `X`, `T`) are outside the model; the
two format strings of `main.go` use none of them. -/
def doPrintf : List Char → List String → List Char
  | [], args => fmtExtra args
  | '%' :: [], args => "%!(NOVERB)".data ++ fmtExtra args
  | '%' :: '%' :: rest, args => '%' :: doPrintf rest args
  | '%' :: verb :: rest, [] => fmtMissing verb ++ doPrintf rest []
  | '%' :: verb :: rest, a :: args =>
    (if verb = 's' ∨ verb = 'v' then a.data else fmtBadVerb verb a) ++ doPrintf rest args
  | c :: rest, args => c :: doPrintf rest args

/-- Model of `fmt.Sprintf(format, args...)`. -/
def Sprintf (format : String) (args : List String) : String :=
  ⟨doPrintf format.data args⟩

/-! ## Package `net/http`: requests and response writers -/

/-- The fields of `*http.Request` that the server and the multiplexer look at. -/
structure Request where
  /-- Field `r.Method`. -/
  method : String
  /-- Field `r.RequestURI`, the unmodified request target. -/
  requestURI : String
  /-- Field `r.Host`. -/
  host : String
  /-- The value of `stripHostPort(r.Host)`: the host with any port removed.  The
  port-splitting routine of package `net` is not modelled; its result is part of the
  request. -/
  hostname : String
  /-- Field `r.URL.Path`: the path with its percent-escapes decoded. -/
  path : String
  /-- The value of `r.URL.EscapedPath()`: the path as the request target spells it,
  percent-escapes kept.  The URL parser is not modelled; both forms of the path are part
  of the request. -/
  escapedPath : String
  /-- Field `r.URL.RawQuery`. -/
  rawQuery : String
  /-- Field `r.Header`. -/
  header : List (String × String)
  /-- The request body. -/
  body : String
deriving DecidableEq, Repr

/-- The state of an `http.ResponseWriter`. `status` is `none` until the response
header is written, either by `WriteHeader` or by the first `Write`. -/
structure ResponseWriter where
  /-- The header map returned by `w.Header()`. -/
  header : List (String × String)
  /-- The status code sent with the response header, once written. -/
  status : Option Nat
  /-- The body bytes written so far. -/
  body : String
deriving DecidableEq, Repr

/-- The writer the server hands to a handler: nothing written yet. -/
def ResponseWriter.fresh : ResponseWriter :=
  { header := [], status := none, body := "" }

/-- Constant `http.StatusOK`. -/
def StatusOK : Nat := 200

/-- Model of `w.WriteHeader(code)`: the first call fixes the status, later calls are
ignored. -/
def ResponseWriter.WriteHeader (w : ResponseWriter) (code : Nat) : ResponseWriter :=
  match w.status with
  | none => { w with status := some code }
  | some _ => w

/-- Model of `w.Write(data)`: if the header has not been written yet, `Write` calls
`WriteHeader(http.StatusOK)` first; then the data is appended to the body. -/
def ResponseWriter.Write (w : ResponseWriter) (data : String) : ResponseWriter :=
  let w1 := w.WriteHeader StatusOK
  { w1 with body := w1.body ++ data }

/-- The status of the finished response: the one written, or 200 when the handler
returned without writing anything. -/
def ResponseWriter.finalStatus (w : ResponseWriter) : Nat :=
  w.status.getD StatusOK

/-- Model of `fmt.Fprintf(w, format, args...)`: the formatted text is passed to `w`
in a single `Write`. -/
def Fprintf (w : ResponseWriter) (format : String) (args : List String) : ResponseWriter :=
  w.Write (Sprintf format args)

/-! ## The process environment -/

/-- The process environment: the value of each variable that is set. -/
abbrev Env := String → Option String

/-- Model of `os.Getenv(key)`: the value of the variable, or the empty string when it
is not set. -/
def Getenv (env : Env) (key : String) : String :=
  (env key).getD ""

/-- A handler function: it receives the response writer and the request, and runs
inside the process, whose mutable global state it may read and change. -/
abbrev HandlerFunc := Env → ResponseWriter → Request → Env × ResponseWriter

/-- The format string of the `fmt.Fprintf` call at `main.go:25`. -/
def helloFormat : String := "Hello, World!"

/-- The closure registered at `main.go:24-26`:
`func(w http.ResponseWriter, r *http.Request) { fmt.Fprintf(w, "Hello, World!") }`.
It captures no variable and touches no global. -/
def helloHandler : HandlerFunc :=
  fun env w _r => (env, Fprintf w helloFormat [])

/-! ## Package `path`: lexical path cleaning

The multiplexer canonicalizes request paths with `cleanPath`, which calls `path.Clean`.
Both are embedded from the Go standard library, loop by loop.
-/

/-- The write buffer of `path.Clean` (`type lazybuf`): `s` is the input, `buf` the
output once it differs from the input (`none` models the nil slice), `w` the number
of bytes written. -/
structure lazybuf where
  /-- The string being cleaned. -/
  s : List Char
  /-- The allocated output buffer, nil until the output diverges from `s`. -/
  buf : Option (List Char)
  /-- Index of the next byte to write. -/
  w : Nat
deriving DecidableEq, Repr

/-- Method `(b *lazybuf) index(i)`: byte `i` of the buffer, read from `s` while no
buffer is allocated. -/
def lazybuf.index (b : lazybuf) (i : Nat) : Char :=
  match b.buf with
  | some buf => buf.getD i (Char.ofNat 0)
  | none => b.s.getD i (Char.ofNat 0)

/-- Method `(b *lazybuf) append(c)`: while no buffer is allocated and `c` is the next
byte of `s`, only `w` advances; otherwise a buffer of `len(s)` bytes is allocated, the
first `w` bytes of `s` are copied into it, and `c` is stored at position `w`. -/
def lazybuf.append (b : lazybuf) (c : Char) : lazybuf :=
  match b.buf with
  | none =>
    if b.w < b.s.length ∧ b.s.getD b.w (Char.ofNat 0) = c then
      { b with w := b.w + 1 }
    else
      let buf := b.s.take b.w ++ List.replicate (b.s.length - b.w) (Char.ofNat 0)
      { b with buf := some (buf.set b.w c), w := b.w + 1 }
  | some buf => { b with buf := some (buf.set b.w c), w := b.w + 1 }

/-- Method `(b *lazybuf) string()`: the first `w` bytes of the buffer. -/
def lazybuf.string (b : lazybuf) : List Char :=
  match b.buf with
  | none => b.s.take b.w
  | some buf => buf.take b.w

/-- The inner loop of the `..` case of `path.Clean`,
`for out.w > dotdot && out.index(out.w) != '/' { out.w-- }`, as a function of the
current `out.w`; it returns the final `out.w`. -/
def backtrack (out : lazybuf) (dotdot : Nat) : Nat → Nat
  | 0 => 0
  | w + 1 =>
    if w + 1 > dotdot ∧ out.index (w + 1) ≠ '/' then backtrack out dotdot w else w + 1

/-- The copy loop of `path.Clean`,
`for ; r < n && path[r] != '/'; r++ { out.append(path[r]) }`.  Each turn advances
`r`, so `n - r` turns always suffice; the first argument counts the turns left. -/
def copyElement (path : List Char) (n : Nat) : Nat → Nat → lazybuf → Nat × lazybuf
  | 0, r, out => (r, out)
  | turns + 1, r, out =>
    if r < n ∧ path.getD r (Char.ofNat 0) ≠ '/' then
      copyElement path n turns (r + 1) (out.append (path.getD r (Char.ofNat 0)))
    else (r, out)

/-- The main loop of `path.Clean`, `for r < n { switch { ... } }`, with the state
`r`, `dotdot`, `out`.  Each turn advances `r`, so `n - r` turns always suffice; the
first argument counts the turns left. -/
def cleanLoop (path : List Char) (rooted : Bool) (n : Nat) :
    Nat → Nat → Nat → lazybuf → lazybuf
  | 0, _, _, out => out
  | turns + 1, r, dotdot, out =>
    if r < n then
      let byte (i : Nat) : Char := path.getD i (Char.ofNat 0)
      if byte r = '/' then
        -- empty path element
        cleanLoop path rooted n turns (r + 1) dotdot out
      else if byte r = '.' ∧ (r + 1 = n ∨ byte (r + 1) = '/') then
        -- . element
        cleanLoop path rooted n turns (r + 1) dotdot out
      else if byte r = '.' ∧ byte (r + 1) = '.' ∧ (r + 2 = n ∨ byte (r + 2) = '/') then
        -- .. element: remove to last /
        if out.w > dotdot then
          -- can backtrack
          let out1 := { out with w := backtrack out dotdot (out.w - 1) }
          cleanLoop path rooted n turns (r + 2) dotdot out1
        else if ¬ rooted then
          -- cannot backtrack, but not rooted, so append .. element
          let out1 := if out.w > 0 then out.append '/' else out
          let out2 := (out1.append '.').append '.'
          cleanLoop path rooted n turns (r + 2) out2.w out2
        else
          cleanLoop path rooted n turns (r + 2) dotdot out
      else
        -- real path element: add slash if needed, then copy the element
        let out1 :=
          if (rooted ∧ out.w ≠ 1) ∨ (¬ rooted ∧ out.w ≠ 0) then out.append '/' else out
        let copied := copyElement path n (n - r) r out1
        cleanLoop path rooted n turns copied.1 dotdot copied.2
    else out

/-- Model of `path.Clean(path)`: the shortest path name equivalent to `path` by purely
lexical processing. -/
def Clean (path : List Char) : List Char :=
  if path = [] then ['.']
  else
    let rooted : Bool := path.getD 0 (Char.ofNat 0) = '/'
    let n := path.length
    let out0 : lazybuf := { s := path, buf := none, w := 0 }
    let out := if rooted then
        cleanLoop path rooted n (n - 1) 1 1 (out0.append '/')
      else
        cleanLoop path rooted n n 0 0 out0
    -- Turn empty string into "."
    if out.w = 0 then ['.'] else out.string

/-- Model of `cleanPath(p)` in `net/http`: the canonical form of a request path,
without `.` and `..` elements or repeated slashes, rooted at `/`, keeping a trailing
slash. -/
def cleanPath (p : String) : String :=
  if p = "" then "/"
  else
    let p1 : List Char := if p.data.getD 0 (Char.ofNat 0) ≠ '/' then '/' :: p.data else p.data
    let np := Clean p1
    -- path.Clean removes trailing slash except for root; put it back if necessary
    if p1.getLast? = some '/' ∧ np ≠ ['/'] then
      -- fast path for the common case of p1 being the string we want
      if p1.length = np.length + 1 ∧ np.isPrefixOf p1 then ⟨p1⟩ else ⟨np ++ ['/']⟩
    else ⟨np⟩

/-! ## Package `net/http`: the request multiplexer

`http.HandleFunc` and `http.ListenAndServe(addr, nil)` work on `http.DefaultServeMux`.
The multiplexer is library code, and which requests reach the handler of `main.go` is
decided there.  Nothing in `main.go` selects a Go release, and the releases differ in
three points, which are therefore parameters of the embedding (`MuxRelease`): the
status code of the redirects the multiplexer issues, whether it canonicalizes the
decoded path `r.URL.Path` or the escaped path `r.URL.EscapedPath()`, and how it routes
`CONNECT` requests, whose path it does not canonicalize.  What all releases share is
embedded as code: for every request other than `CONNECT` the path is cleaned, a request
whose path cleaning changes is redirected to the cleaned path, and any other is matched
against the registered patterns.
-/

/-- An entry of the multiplexer (`type muxEntry`). -/
structure muxEntry where
  /-- The registered handler. -/
  h : HandlerFunc
  /-- The pattern it was registered under. -/
  pattern : String

/-- The request multiplexer (`type ServeMux`). -/
structure ServeMux where
  /-- The map from pattern to entry, as an association list. -/
  m : List (String × muxEntry)
  /-- The entries whose pattern ends in `/`, sorted from longest to shortest. -/
  es : List muxEntry
  /-- Whether any pattern contains a host name. -/
  hosts : Bool

/-- The zero value of `ServeMux`, the initial `http.DefaultServeMux`. -/
def ServeMux.empty : ServeMux :=
  { m := [], es := [], hosts := false }

/-- Function `appendSorted(es, e)`: insert `e` in front of the first entry whose
pattern is shorter. -/
def appendSorted : List muxEntry → muxEntry → List muxEntry
  | [], e => [e]
  | x :: rest, e =>
    if x.pattern.utf8ByteSize < e.pattern.utf8ByteSize then e :: x :: rest
    else x :: appendSorted rest e

/-- Method `(mux *ServeMux) Handle(pattern, handler)`, which `http.HandleFunc`
calls on the default multiplexer.  It panics (`Except.error` with the panic message)
on an empty pattern and on a pattern registered before; a handler function value is
never nil here. -/
def ServeMux.Handle (mux : ServeMux) (pattern : String) (handler : HandlerFunc) :
    Except String ServeMux :=
  if pattern = "" then .error "http: invalid pattern"
  else if (mux.m.lookup pattern).isSome then
    .error ("http: multiple registrations for " ++ pattern)
  else
    let e : muxEntry := { h := handler, pattern := pattern }
    .ok
      { m := (pattern, e) :: mux.m
        es := if pattern.data.getLast? = some '/' then appendSorted mux.es e else mux.es
        hosts := if pattern.data.head? ≠ some '/' then true else mux.hosts }

/-- Method `(mux *ServeMux) match(path)`: the entry registered for exactly `path`,
else the first (longest) entry of `es` whose pattern is a prefix of `path`. -/
def ServeMux.match (mux : ServeMux) (path : String) : Option muxEntry :=
  match mux.m.lookup path with
  | some v => some v
  | none => mux.es.find? fun e => e.pattern.data.isPrefixOf path.data

/-- Which handler `(mux *ServeMux) Handler(r)` selects for a request. -/
inductive Route where
  /-- A registered entry. -/
  | registered (e : muxEntry)
  /-- The value `RedirectHandler(u.String(), code)` for `u` with the given path and
  raw query: the multiplexer itself answers with a redirect. -/
  | redirect (path rawQuery : String) (code : Nat)
  /-- The value `NotFoundHandler()`: the multiplexer itself answers 404. -/
  | notFound

/-- Constant `http.StatusNotFound`. -/
def StatusNotFound : Nat := 404

/-- Constant `http.StatusBadRequest`. -/
def StatusBadRequest : Nat := 400

/-- Method `(mux *ServeMux) handler(host, path)`: a host-specific pattern takes
precedence over generic ones; without a match the not-found handler is used. -/
def ServeMux.handler (mux : ServeMux) (host path : String) : Route :=
  let h1 := if mux.hosts then mux.match (host ++ path) else none
  let h2 := match h1 with
    | some e => some e
    | none => mux.match path
  match h2 with
  | some e => Route.registered e
  | none => Route.notFound

/-- Method `(mux *ServeMux) shouldRedirectRLocked(host, path)`: whether `path` is
not registered while `path + "/"` is. -/
def ServeMux.shouldRedirectRLocked (mux : ServeMux) (host path : String) : Bool :=
  let p := [path, host ++ path]
  if p.any fun c => (mux.m.lookup c).isSome then false
  else if path.data.length = 0 then false
  else if p.any fun c => (mux.m.lookup (c ++ "/")).isSome then
    decide (path.data.getLast? ≠ some '/')
  else false

/-- How a release routes a `CONNECT` request, whose path is not canonicalized. -/
inductive ConnectRouting where
  /-- The request is matched against the registered patterns by its path as it is. -/
  | toPattern
  /-- The multiplexer answers with a redirect, with this status code and path. -/
  | redirect (code : Nat) (path : String)
  /-- The multiplexer answers 404. -/
  | notFound
deriving DecidableEq, Repr

/-- The points in which the multiplexers of the Go releases differ. -/
structure MuxRelease where
  /-- The status code of the redirect to the cleaned path. -/
  redirectCode : Nat
  /-- It is a redirection status (301 in the Go 1.21 multiplexer, 307 in a current
  one). -/
  redirectCode_is_3xx : 300 ≤ redirectCode ∧ redirectCode < 400
  /-- Whether the path that is cleaned and matched is `r.URL.EscapedPath()` (current
  releases) rather than `r.URL.Path` (the Go 1.21 multiplexer). -/
  usesEscapedPath : Bool
  /-- The routing of `CONNECT` requests. -/
  connectRouting : Request → ConnectRouting

/-- The path of a request as the multiplexer of the release reads it. -/
def MuxRelease.muxPath (rel : MuxRelease) (r : Request) : String :=
  if rel.usesEscapedPath then r.escapedPath else r.path

/-- Method `(mux *ServeMux) Handler(r)`, the choice of the handler for a request.
`CONNECT` requests are not canonicalized and are routed as the release says.  All other
requests have the port stripped from the host and the path cleaned; they are redirected
to the cleaned path when it differs from the one requested, and matched against the
registered patterns otherwise.  The step before that, the redirect from an unregistered
`/tree` to a registered `/tree/`, is the one of the map-based multiplexer; with `/` as
the only pattern it never applies. -/
def ServeMux.Handler (rel : MuxRelease) (mux : ServeMux) (r : Request) : Route :=
  if r.method = "CONNECT" then
    match rel.connectRouting r with
    | .toPattern => mux.handler r.host r.path
    | .redirect code path => Route.redirect path r.rawQuery code
    | .notFound => Route.notFound
  else
    let host := r.hostname
    let requested := rel.muxPath r
    let path := cleanPath requested
    if mux.shouldRedirectRLocked host path then
      Route.redirect (path ++ "/") r.rawQuery rel.redirectCode
    else if path ≠ requested then
      Route.redirect path r.rawQuery rel.redirectCode
    else mux.handler host requested

/-- The answer to one request.  For an answer the library produces on its own only
the status code and the redirect target are recorded, not its headers and body. -/
inductive Reply where
  /-- A registered handler ran and left the response writer in this state. -/
  | handled (pattern : String) (w : ResponseWriter)
  /-- The multiplexer answered with a redirect to `path?rawQuery`. -/
  | redirected (code : Nat) (path rawQuery : String)
  /-- The multiplexer answered `404 page not found`. -/
  | notFound
  /-- The multiplexer answered 400 to the request target `*`. -/
  | badRequest
  /-- The server answered `OPTIONS *` itself, with an empty 200 response. -/
  | globalOptions
deriving DecidableEq, Repr

/-- The status code of an answer. -/
def Reply.status : Reply → Nat
  | .handled _ w => w.finalStatus
  | .redirected code _ _ => code
  | .notFound => StatusNotFound
  | .badRequest => StatusBadRequest
  | .globalOptions => StatusOK

/-- Method `(mux *ServeMux) ServeHTTP(w, r)`: the request target `*` is answered
with 400; any other request is passed to the handler that `Handler(r)` selects. -/
def ServeMux.ServeHTTP (rel : MuxRelease) (mux : ServeMux) (env : Env) (r : Request) :
    Env × Reply :=
  if r.requestURI = "*" then (env, Reply.badRequest)
  else
    match mux.Handler rel r with
    | Route.registered e =>
      let res := e.h env ResponseWriter.fresh r
      (res.1, Reply.handled e.pattern res.2)
    | Route.redirect path rawQuery code => (env, Reply.redirected code path rawQuery)
    | Route.notFound => (env, Reply.notFound)

/-- Method `serverHandler.ServeHTTP` for a server whose `Handler` is nil, as started
by `http.ListenAndServe(addr, nil)`: the default multiplexer serves every request,
except `OPTIONS *`, which the server answers itself. -/
def serverHandler (rel : MuxRelease) (mux : ServeMux) (env : Env) (r : Request) :
    Env × Reply :=
  if r.requestURI = "*" ∧ r.method = "OPTIONS" then (env, Reply.globalOptions)
  else mux.ServeHTTP rel env r

/-- The server loop on a sequence of requests, handled one after the other: the
process state left by one handler run is the state the next one starts from. -/
def serveAll (rel : MuxRelease) (mux : ServeMux) : Env → List Request → Env × List Reply
  | env, [] => (env, [])
  | env, r :: rest =>
    let res := serverHandler rel mux env r
    let tail := serveAll rel mux res.1 rest
    (tail.1, res.2 :: tail.2)

/-! ## Package `godotenv` and the system environment

Reading and parsing `.env` is an input of the run (`World.dotenv`).  What `godotenv.Load`
does with the parsed file is embedded from `loadFile`: it sets the variables that do
not exist yet and never overrides one that does.
-/

/-- The check of `syscall.Setenv(key, value)`: the key is not empty and contains
neither `=` nor NUL, and the value contains no NUL. -/
def setenvValid (key value : String) : Bool :=
  decide (key.data.length ≠ 0) && !key.data.contains '=' && !key.data.contains (Char.ofNat 0)
    && !value.data.contains (Char.ofNat 0)

/-- Function `loadFile(filename, false)` of `godotenv` once the file is read and parsed
into `envMap`: every key of the file that does not exist in the current environment
is set with `os.Setenv`, whose error is ignored; a variable that already exists is
left as it is. -/
def loadFile (envMap : String → Option String) (env : Env) : Env :=
  fun key =>
    match env key with
    | some current => some current
    | none =>
      match envMap key with
      | some value => if setenvValid key value then some value else none
      | none => none

/-! ## The process: inputs, state, outcomes -/

/-- How `http.ListenAndServe` ends. It never returns a nil error. -/
inductive ListenResult where
  /-- The listener could not be bound (for instance the port is in use or is not a
  valid port); the call returns this error. -/
  | bindError (err : String)
  /-- The listener was bound and the accept loop later returned this error. -/
  | serveError (err : String)
  /-- The listener was bound and the accept loop runs until the process is killed. -/
  | servesForever
deriving DecidableEq, Repr

/-- What the outside world contributes to one run of the program. -/
structure World where
  /-- The environment the process is started with. -/
  environ : Env
  /-- The result of reading and parsing the file `.env` of the working directory:
  the error when that fails (file absent, unreadable or malformed), else the
  key-value map of the file. -/
  dotenv : Except String (String → Option String)
  /-- How `ListenAndServe` ends for a given address. -/
  listen : String → ListenResult

/-- The observable effects of `main`, in the order they happen. -/
inductive Event where
  /-- The call `godotenv.Load()` returned; `ok` tells whether the error was nil. -/
  | envLoaded (ok : Bool)
  /-- The call `os.Getenv(key)` returned `value`. -/
  | envRead (key value : String)
  /-- A handler was registered on the default multiplexer under `pattern`. -/
  | handlerRegistered (pattern : String)
  /-- A line written by `log.Printf`. -/
  | logged (line : String)
  /-- A line written by `log.Fatal`, which then exits. -/
  | fatal (line : String)
  /-- The call `http.ListenAndServe(addr, nil)` was made: a bind is attempted. -/
  | listenAndServe (addr : String)
  /-- The listener was bound at `addr`. -/
  | bound (addr : String)
deriving DecidableEq, Repr

/-- The state of the process. -/
structure Proc where
  /-- The process environment. -/
  env : Env
  /-- The multiplexer `http.DefaultServeMux`. -/
  mux : ServeMux
  /-- The events so far, oldest first. -/
  trace : List Event

/-- The state in which `main` starts. -/
def Proc.init (world : World) : Proc :=
  { env := world.environ, mux := ServeMux.empty, trace := [] }

/-- Record an event. -/
def Proc.emit (s : Proc) (e : Event) : Proc :=
  { s with trace := s.trace ++ [e] }

/-- How a statement, or the whole of `main`, ends. -/
inductive Result (α : Type) where
  /-- The statement completed with a value; control continues after it. -/
  | ok (a : α) (s : Proc)
  /-- The process ended by `os.Exit(code)`. -/
  | exited (code : Nat) (s : Proc)
  /-- The goroutine panicked. -/
  | panicked (msg : String) (s : Proc)
  /-- The call never returns: the process serves requests until it is killed. -/
  | blocked (s : Proc)

/-- The final state of a run. -/
def Result.proc {α : Type} : Result α → Proc
  | .ok _ s => s
  | .exited _ s => s
  | .panicked _ s => s
  | .blocked s => s

/-- A statement: a function from the state before it to its result. -/
def Prog (α : Type) : Type := Proc → Result α

/-- Sequencing: the second statement runs only if the first one completes. -/
def Prog.bind {α β : Type} (m : Prog α) (f : α → Prog β) : Prog β :=
  fun s =>
    match m s with
    | .ok a s1 => f a s1
    | .exited code s1 => .exited code s1
    | .panicked msg s1 => .panicked msg s1
    | .blocked s1 => .blocked s1

instance : Monad Prog where
  pure a := fun s => .ok a s
  bind := Prog.bind

/-- Call `godotenv.Load()`: read and parse `.env`; on failure return the error, on
success merge the file into the environment and return nil (`none`). -/
def godotenvLoad (world : World) : Prog (Option String) :=
  fun s =>
    match world.dotenv with
    | .error err => .ok (some err) (s.emit (.envLoaded false))
    | .ok envMap =>
      .ok none ({ s with env := loadFile envMap s.env }.emit (.envLoaded true))

/-- Call `os.Getenv(key)`. -/
def osGetenv (key : String) : Prog String :=
  fun s => .ok (Getenv s.env key) (s.emit (.envRead key (Getenv s.env key)))

/-- Call `os.Exit(code)`: the process ends at once. -/
def osExit (code : Nat) : Prog Unit :=
  fun s => .exited code s

/-- Call `log.Fatal(v)`: print the message, then call `os.Exit(1)`. -/
def logFatal (msg : String) : Prog Unit := do
  (fun s => .ok () (s.emit (.fatal msg)) : Prog Unit)
  osExit 1

/-- Call `log.Printf(format, args...)`: print the formatted line. -/
def logPrintf (format : String) (args : List String) : Prog Unit :=
  fun s => .ok () (s.emit (.logged (Sprintf format args)))

/-- Call `http.HandleFunc(pattern, handler)`: register the handler on the default
multiplexer; `Handle` panics on an invalid or duplicate pattern. -/
def httpHandleFunc (pattern : String) (handler : HandlerFunc) : Prog Unit :=
  fun s =>
    match s.mux.Handle pattern handler with
    | .ok mux => .ok () ({ s with mux := mux }.emit (.handlerRegistered pattern))
    | .error msg => .panicked msg s

/-- Call `http.ListenAndServe(addr, nil)`: bind a listener at `addr` and serve with
the default multiplexer.  The call returns only with an error; while the accept loop
runs it does not return. -/
def httpListenAndServe (world : World) (addr : String) : Prog String :=
  fun s =>
    let s1 := s.emit (.listenAndServe addr)
    match world.listen addr with
    | .bindError err => .ok err s1
    | .serveError err => .ok err (s1.emit (.bound addr))
    | .servesForever => .blocked (s1.emit (.bound addr))

/-- The message of the first `log.Fatal`, `main.go:16`. -/
def loadErrorMessage : String := "Ошибка загрузки .env файла"

/-- The message of the second `log.Fatal`, `main.go:21`. -/
def portErrorMessage : String := "PORT не установлен в .env файле"

/-- The format of the `log.Printf` call, `main.go:28`. -/
def startedFormat : String := "Сервер запущен на порту %s"

/-- Function `main` of `main.go`, statement by statement. -/
def main (world : World) : Prog Unit := do
  let err ← godotenvLoad world
  if err ≠ none then
    logFatal loadErrorMessage
  let port ← osGetenv "PORT"
  if port = "" then
    logFatal portErrorMessage
  httpHandleFunc "/" helloHandler
  logPrintf startedFormat [port]
  let serveErr ← httpListenAndServe world (":" ++ port)
  logFatal serveErr

/-- One run of the program in a given world. -/
def run (world : World) : Result Unit :=
  main world (Proc.init world)

/-- The exit code of a run that ended by `os.Exit`. -/
def Result.exitCode {α : Type} : Result α → Option Nat
  | .exited code _ => some code
  | _ => none

/-- Whether `main` returned normally, which would end the process with code 0. -/
def Result.returned {α : Type} : Result α → Bool
  | .ok _ _ => true
  | _ => false

/-- Whether the run ended in a panic. -/
def Result.isPanic {α : Type} : Result α → Bool
  | .panicked _ _ => true
  | _ => false

/-- Whether the run is blocked in the accept loop, serving requests. -/
def Result.serving {α : Type} : Result α → Bool
  | .blocked _ => true
  | _ => false

/-- The trace of a run. -/
def traceOf (world : World) : List Event :=
  (run world).proc.trace

/-! ## Reading a trace -/

/-- The lines `log.Fatal` wrote, in order. -/
def fatalLines : List Event → List String
  | [] => []
  | .fatal line :: rest => line :: fatalLines rest
  | _ :: rest => fatalLines rest

/-- The lines `log.Printf` wrote, in order. -/
def loggedLines : List Event → List String
  | [] => []
  | .logged line :: rest => line :: loggedLines rest
  | _ :: rest => loggedLines rest

/-- The addresses passed to `http.ListenAndServe`, in order: the bind attempts. -/
def bindAttempts : List Event → List String
  | [] => []
  | .listenAndServe addr :: rest => addr :: bindAttempts rest
  | _ :: rest => bindAttempts rest

/-- The addresses at which a listener was bound, in order. -/
def boundAddrs : List Event → List String
  | [] => []
  | .bound addr :: rest => addr :: boundAddrs rest
  | _ :: rest => boundAddrs rest

/-- The keys read with `os.Getenv`, in order. -/
def envReads : List Event → List String
  | [] => []
  | .envRead key _ :: rest => key :: envReads rest
  | _ :: rest => envReads rest

/-- The patterns registered on the default multiplexer, in order. -/
def registrations : List Event → List String
  | [] => []
  | .handlerRegistered pattern :: rest => pattern :: registrations rest
  | _ :: rest => registrations rest

/-- The value `os.Getenv("PORT")` has once `.env` with content `envMap` is loaded
into the initial environment of `world`. -/
def portAfterLoad (world : World) (envMap : String → Option String) : String :=
  Getenv (loadFile envMap world.environ) "PORT"

/-- The multiplexer after `http.HandleFunc("/", helloHandler)` on the empty one. -/
def helloMux : ServeMux :=
  { m := [("/", { h := helloHandler, pattern := "/" })]
    es := [{ h := helloHandler, pattern := "/" }]
    hosts := false }

/-- The confirmation line of `main.go:28` for a port value. -/
def startedLine (port : String) : String :=
  "Сервер запущен на порту " ++ port

/-! ## Derived notions used to state the results -/

/-- The invariant of `path.Clean` on a rooted path: the output keeps its leading
slash. -/
def lazybuf.Rooted (b : lazybuf) : Prop :=
  1 ≤ b.w ∧ b.index 0 = '/'

/-- The response the Hello-World handler leaves in a fresh writer. -/
def helloResponse : ResponseWriter :=
  { header := [], status := some 200, body := "Hello, World!" }

/-- What the server started by `main` answers to one request, for a given release of
the multiplexer. -/
def helloAnswer (rel : MuxRelease) (r : Request) : Reply :=
  if r.requestURI = "*" then
    if r.method = "OPTIONS" then Reply.globalOptions else Reply.badRequest
  else if r.method = "CONNECT" then
    match rel.connectRouting r with
    | .toPattern =>
      if r.path.data.head? = some '/' then Reply.handled "/" helloResponse
      else Reply.notFound
    | .redirect code path => Reply.redirected code path r.rawQuery
    | .notFound => Reply.notFound
  else if cleanPath (rel.muxPath r) ≠ rel.muxPath r then
    Reply.redirected rel.redirectCode (cleanPath (rel.muxPath r)) r.rawQuery
  else Reply.handled "/" helloResponse

/-! ## Concrete worlds and requests -/

/-- The environment in which only `PORT=8080` is set. -/
def envPort8080 : Env :=
  fun key => if key = "PORT" then some "8080" else none

/-- The empty environment. -/
def envEmpty : Env :=
  fun _ => none

/-- No `.env` in the working directory, while `PORT=8080` is set in the environment. -/
def worldNoFile : World :=
  { environ := envPort8080
    dotenv := .error "open .env: no such file or directory"
    listen := fun _ => .servesForever }

/-- The file `.env` sets `PORT=abc`; binding at `:abc` fails. -/
def worldPortAbc : World :=
  { environ := envEmpty
    dotenv := .ok fun key => if key = "PORT" then some "abc" else none
    listen := fun _ => .bindError "listen tcp: lookup tcp/abc: unknown port" }

/-- The file `.env` sets `PORT=8080` and the server runs. -/
def worldServing : World :=
  { environ := envEmpty
    dotenv := .ok fun key => if key = "PORT" then some "8080" else none
    listen := fun _ => .servesForever }

/-- The file `.env` sets `PORT=8080` and the port is already in use. -/
def worldPortInUse : World :=
  { environ := envEmpty
    dotenv := .ok fun key => if key = "PORT" then some "8080" else none
    listen := fun _ => .bindError "listen tcp :8080: bind: address already in use" }

/-- No `.env` in the working directory and no `PORT` in the environment. -/
def worldNothing : World :=
  { environ := envEmpty
    dotenv := .error "open .env: no such file or directory"
    listen := fun _ => .servesForever }

/-- The file `.env` exists and has no `PORT` line; the environment has none either. -/
def worldNoPort : World :=
  { environ := envEmpty
    dotenv := .ok fun key => if key = "GREETING" then some "hi" else none
    listen := fun _ => .servesForever }

/-- The file `.env` exists and has no `PORT` line, while `PORT=8080` is set in the
environment the process is started with. -/
def worldPresetPort : World :=
  { environ := envPort8080
    dotenv := .ok fun key => if key = "GREETING" then some "hi" else none
    listen := fun _ => .servesForever }

/-- The file `.env` exists and has no `PORT` line, while `PORT=3000` is set in the
environment the process is started with; binding at `:3000` fails. -/
def worldPreset3000 : World :=
  { environ := fun key => if key = "PORT" then some "3000" else none
    dotenv := .ok fun key => if key = "GREETING" then some "hi" else none
    listen := fun _ => .bindError "listen tcp :3000: bind: permission denied" }

/-- The file `.env` has the line `PORT=` (empty value), while `PORT=8080` is set in the
environment the process is started with. -/
def worldPresetPortEmptyLine : World :=
  { environ := envPort8080
    dotenv := .ok fun key => if key = "PORT" then some "" else none
    listen := fun _ => .servesForever }

/-- A current multiplexer: it cleans the escaped path and redirects with 307. -/
def releaseCurrent : MuxRelease :=
  { redirectCode := 307
    redirectCode_is_3xx := by decide
    usesEscapedPath := true
    connectRouting := fun _ => .toPattern }

/-- Request `GET /` for host `localhost:8080`. -/
def requestRoot : Request :=
  { method := "GET", requestURI := "/", host := "localhost:8080", hostname := "localhost",
    path := "/", escapedPath := "/", rawQuery := "", header := [], body := "" }

/-- Request `POST /api/items?x=1` with a body. -/
def requestPost : Request :=
  { method := "POST", requestURI := "/api/items?x=1", host := "localhost:8080",
    hostname := "localhost", path := "/api/items", escapedPath := "/api/items",
    rawQuery := "x=1", header := [("Content-Type", "text/plain")], body := "payload" }

theorem doPrintf_no_verb (format : List Char) (h : '%' ∉ format) :
    doPrintf format [] = format := by
  induction format with
  | nil => rfl
  | cons c rest ih =>
    have hc : c ≠ '%' := fun hc => h (by simp [hc])
    have hrest : '%' ∉ rest := fun hr => h (by simp [hr])
    rw [doPrintf]
    · rw [ih hrest]
    all_goals (intros; contradiction)

theorem Sprintf_no_verb (format : String) (h : '%' ∉ format.data) :
    Sprintf format [] = format := by
  simp [Sprintf, doPrintf_no_verb format.data h]

theorem Sprintf_started (port : String) :
    Sprintf startedFormat [port] = startedLine port := by
  simp [Sprintf, startedFormat, startedLine, doPrintf, fmtExtra]
  rfl

/-! ## Lemmas on the runs of `main` -/

theorem run_load_error (world : World) (err : String) (h : world.dotenv = .error err) :
    run world = .exited 1
      { env := world.environ, mux := ServeMux.empty,
        trace := [.envLoaded false, .fatal loadErrorMessage] } := by
  simp [run, main, bind, Prog.bind, godotenvLoad, h, logFatal, osExit, Proc.init, Proc.emit]

theorem run_port_empty (world : World) (envMap : String → Option String)
    (h : world.dotenv = .ok envMap) (hp : portAfterLoad world envMap = "") :
    run world = .exited 1
      { env := loadFile envMap world.environ, mux := ServeMux.empty,
        trace := [.envLoaded true, .envRead "PORT" "", .fatal portErrorMessage] } := by
  unfold portAfterLoad at hp
  simp [run, main, bind, Prog.bind, godotenvLoad, h, logFatal, osExit, Proc.init, Proc.emit,
    osGetenv, hp, pure]

theorem helloMux_eq : ServeMux.empty.Handle "/" helloHandler = .ok helloMux := by
  rfl

theorem run_started (world : World) (envMap : String → Option String)
    (h : world.dotenv = .ok envMap) (hp : portAfterLoad world envMap ≠ "") :
    run world =
      (let port := portAfterLoad world envMap
       let s : Proc :=
        { env := loadFile envMap world.environ, mux := helloMux,
          trace := [.envLoaded true, .envRead "PORT" port, .handlerRegistered "/",
            .logged (startedLine port), .listenAndServe (":" ++ port)] }
       match world.listen (":" ++ port) with
       | .bindError err => Result.exited 1 (s.emit (.fatal err))
       | .serveError err => Result.exited 1 ((s.emit (.bound (":" ++ port))).emit (.fatal err))
       | .servesForever => Result.blocked (s.emit (.bound (":" ++ port)))) := by
  unfold portAfterLoad at *
  cases hl : world.listen (":" ++ Getenv (loadFile envMap world.environ) "PORT") <;>
  simp [run, main, bind, Prog.bind, godotenvLoad, h, logFatal, osExit, Proc.init, Proc.emit,
    osGetenv, hp, pure, httpHandleFunc, helloMux_eq, logPrintf, Sprintf_started,
    httpListenAndServe, hl]

theorem run_bind_error (world : World) (envMap : String → Option String) (err : String)
    (h : world.dotenv = .ok envMap) (hp : portAfterLoad world envMap ≠ "")
    (hl : world.listen (":" ++ portAfterLoad world envMap) = .bindError err) :
    run world = .exited 1
      { env := loadFile envMap world.environ, mux := helloMux,
        trace := [.envLoaded true, .envRead "PORT" (portAfterLoad world envMap),
          .handlerRegistered "/", .logged (startedLine (portAfterLoad world envMap)),
          .listenAndServe (":" ++ portAfterLoad world envMap), .fatal err] } := by
  rw [run_started world envMap h hp]
  simp [hl, Proc.emit]

theorem run_serve_error (world : World) (envMap : String → Option String) (err : String)
    (h : world.dotenv = .ok envMap) (hp : portAfterLoad world envMap ≠ "")
    (hl : world.listen (":" ++ portAfterLoad world envMap) = .serveError err) :
    run world = .exited 1
      { env := loadFile envMap world.environ, mux := helloMux,
        trace := [.envLoaded true, .envRead "PORT" (portAfterLoad world envMap),
          .handlerRegistered "/", .logged (startedLine (portAfterLoad world envMap)),
          .listenAndServe (":" ++ portAfterLoad world envMap),
          .bound (":" ++ portAfterLoad world envMap), .fatal err] } := by
  rw [run_started world envMap h hp]
  simp [hl, Proc.emit]

theorem run_serves_forever (world : World) (envMap : String → Option String)
    (h : world.dotenv = .ok envMap) (hp : portAfterLoad world envMap ≠ "")
    (hl : world.listen (":" ++ portAfterLoad world envMap) = .servesForever) :
    run world = .blocked
      { env := loadFile envMap world.environ, mux := helloMux,
        trace := [.envLoaded true, .envRead "PORT" (portAfterLoad world envMap),
          .handlerRegistered "/", .logged (startedLine (portAfterLoad world envMap)),
          .listenAndServe (":" ++ portAfterLoad world envMap),
          .bound (":" ++ portAfterLoad world envMap)] } := by
  rw [run_started world envMap h hp]
  simp [hl, Proc.emit]

/-! ## Lemmas on path cleaning -/

theorem getD_zero_slash (l : List Char) (h : l.getD 0 (Char.ofNat 0) = '/') :
    ∃ t, l = '/' :: t := by
  cases l with
  | nil => exact absurd h (by decide)
  | cons c t =>
    simp at h
    exact ⟨t, by rw [h]⟩

theorem lazybuf.append_rooted (b : lazybuf) (c : Char) (h : b.Rooted) :
    (b.append c).Rooted := by
  obtain ⟨hw, hi⟩ := h
  obtain ⟨s, buf, w⟩ := b
  simp only at hw
  obtain ⟨k, rfl⟩ : ∃ k, w = k + 1 := ⟨w - 1, by omega⟩
  cases buf with
  | none =>
    simp only [lazybuf.index] at hi
    obtain ⟨t, rfl⟩ := getD_zero_slash s hi
    simp only [lazybuf.append]
    split
    · exact ⟨by simp, by simp [lazybuf.index]⟩
    · exact ⟨by simp, by simp [lazybuf.index]⟩
  | some buf =>
    simp only [lazybuf.index] at hi
    obtain ⟨t, rfl⟩ := getD_zero_slash buf hi
    exact ⟨by simp [lazybuf.append], by simp [lazybuf.append, lazybuf.index]⟩

theorem backtrack_ge (out : lazybuf) (w : Nat) (h : 1 ≤ w) : 1 ≤ backtrack out 1 w := by
  induction w with
  | zero => omega
  | succ k ih =>
    rw [backtrack]
    split
    · rename_i hc
      exact ih (by omega)
    · omega

theorem copyElement_rooted (path : List Char) (n turns r : Nat) (out : lazybuf)
    (h : out.Rooted) : (copyElement path n turns r out).2.Rooted := by
  induction turns generalizing r out with
  | zero => exact h
  | succ k ih =>
    rw [copyElement]
    split
    · exact ih _ _ (lazybuf.append_rooted _ _ h)
    · exact h

theorem cleanLoop_rooted (path : List Char) (n turns r : Nat) (out : lazybuf)
    (h : out.Rooted) : (cleanLoop path true n turns r 1 out).Rooted := by
  induction turns generalizing r out with
  | zero => exact h
  | succ k ih =>
    rw [cleanLoop]
    split
    · simp only []
      split
      · exact ih _ _ h
      · split
        · exact ih _ _ h
        · split
          · split
            · apply ih
              exact ⟨backtrack_ge _ _ (by omega), h.2⟩
            · simp only [not_true_eq_false, if_false]
              exact ih _ _ h
          · apply ih
            apply copyElement_rooted
            split
            · exact lazybuf.append_rooted _ _ h
            · exact h
    · exact h

theorem lazybuf.string_rooted (b : lazybuf) (h : b.Rooted) : b.string.head? = some '/' := by
  obtain ⟨hw, hi⟩ := h
  obtain ⟨s, buf, w⟩ := b
  simp only at hw
  obtain ⟨k, rfl⟩ : ∃ k, w = k + 1 := ⟨w - 1, by omega⟩
  cases buf with
  | none =>
    simp only [lazybuf.index] at hi
    obtain ⟨t, rfl⟩ := getD_zero_slash s hi
    simp [lazybuf.string]
  | some buf =>
    simp only [lazybuf.index] at hi
    obtain ⟨t, rfl⟩ := getD_zero_slash buf hi
    simp [lazybuf.string]

theorem Clean_rooted (t : List Char) : (Clean ('/' :: t)).head? = some '/' := by
  have h0 : (lazybuf.append { s := '/' :: t, buf := none, w := 0 } '/').Rooted := by
    simp [lazybuf.append, lazybuf.Rooted, lazybuf.index]
  have h1 := cleanLoop_rooted ('/' :: t) ('/' :: t).length (('/' :: t).length - 1) 1 _ h0
  simp only [Clean]
  simp only [List.getD_cons_zero, decide_True, if_true, reduceCtorEq, if_false]
  split
  · rename_i hw
    have := h1.1
    omega
  · exact lazybuf.string_rooted _ h1

theorem cleanPath_rooted (p : String) : (cleanPath p).data.head? = some '/' := by
  unfold cleanPath
  split
  · rfl
  · have hp1 : ∃ t, (if p.data.getD 0 (Char.ofNat 0) ≠ '/' then '/' :: p.data else p.data)
        = '/' :: t := by
      split
      · exact ⟨_, rfl⟩
      · rename_i hh
        exact getD_zero_slash _ (by simpa using hh)
    obtain ⟨t, ht⟩ := hp1
    simp only [ht]
    have hc := Clean_rooted t
    split
    · split
      · rfl
      · cases hcl : Clean ('/' :: t) with
        | nil => rw [hcl] at hc; simp at hc
        | cons c u => rw [hcl] at hc; simpa using hc
    · exact hc

/-! ## The turn counters of `path.Clean` never cut a loop short -/

theorem copyElement_advances (path : List Char) (n turns r : Nat) (out : lazybuf) :
    r ≤ (copyElement path n turns r out).1 := by
  induction turns generalizing r out with
  | zero => exact Nat.le_refl r
  | succ k ih =>
    rw [copyElement]
    split
    · exact Nat.le_trans (Nat.le_succ r) (ih _ _)
    · exact Nat.le_refl r

theorem copyElement_advances_element (path : List Char) (n turns r : Nat) (out : lazybuf)
    (hr : r < n) (hc : path.getD r (Char.ofNat 0) ≠ '/') :
    r + 1 ≤ (copyElement path n (turns + 1) r out).1 := by
  rw [copyElement, if_pos ⟨hr, hc⟩]
  exact copyElement_advances _ _ _ _ _

theorem copyElement_complete (path : List Char) (n turns r : Nat) (out : lazybuf)
    (h : n - r ≤ turns) :
    ¬ ((copyElement path n turns r out).1 < n
        ∧ path.getD (copyElement path n turns r out).1 (Char.ofNat 0) ≠ '/') := by
  induction turns generalizing r out with
  | zero =>
    rw [copyElement]
    intro hh
    omega
  | succ k ih =>
    rw [copyElement]
    split
    · exact ih _ _ (by omega)
    · assumption

theorem cleanLoop_complete (path : List Char) (rooted : Bool) (n t1 t2 r dotdot : Nat)
    (out : lazybuf) (h1 : n - r ≤ t1) (h2 : n - r ≤ t2) :
    cleanLoop path rooted n t1 r dotdot out = cleanLoop path rooted n t2 r dotdot out := by
  induction t1 generalizing t2 r dotdot out with
  | zero =>
    cases t2 with
    | zero => rfl
    | succ k =>
      rw [cleanLoop, cleanLoop, if_neg (by omega)]
  | succ j ih =>
    cases t2 with
    | zero =>
      rw [cleanLoop, cleanLoop, if_neg (by omega)]
    | succ k =>
      rw [cleanLoop, cleanLoop]
      split
      · rename_i hr
        simp only []
        split
        · exact ih _ _ _ _ (by omega) (by omega)
        · split
          · exact ih _ _ _ _ (by omega) (by omega)
          · split
            · split
              · exact ih _ _ _ _ (by omega) (by omega)
              · split
                · exact ih _ _ _ _ (by omega) (by omega)
                · exact ih _ _ _ _ (by omega) (by omega)
            · rename_i hslash _ _
              have hadv := copyElement_advances_element path n (n - r - 1) r
                (if (rooted = true ∧ out.w ≠ 1) ∨ (¬ rooted = true ∧ out.w ≠ 0)
                  then out.append '/' else out) hr hslash
              have hn : n - r - 1 + 1 = n - r := by omega
              rw [hn] at hadv
              exact ih _ _ _ _ (by omega) (by omega)
      · rfl

/-! ## Lemmas on the multiplexer of `main` -/

theorem helloHandler_fresh (env : Env) (r : Request) :
    helloHandler env ResponseWriter.fresh r = (env, helloResponse) := by
  rfl

theorem append_slash_ne (c : String) (h : c ≠ "") : c ++ "/" ≠ "/" := by
  intro hc
  have hd := congrArg String.data hc
  simp only [String.data_append] at hd
  have hl := congrArg List.length hd
  simp at hl
  apply h
  apply String.ext
  exact List.eq_nil_of_length_eq_zero (by simpa using hl)

theorem helloMux_shouldRedirect (host path : String) :
    helloMux.shouldRedirectRLocked host path = false := by
  unfold ServeMux.shouldRedirectRLocked
  simp only []
  split
  · rfl
  · split
    · rfl
    · rename_i hlen
      have hpath : path ≠ "" := by
        intro h
        apply hlen
        rw [h]
        rfl
      have hhp : host ++ path ≠ "" := by
        intro h
        have hd := congrArg String.data h
        simp only [String.data_append] at hd
        have h2 : path.data = [] := by
          have := congrArg List.length hd
          simp at this
          exact List.eq_nil_of_length_eq_zero this.2
        exact hpath (String.ext h2)
      have h1 := append_slash_ne path hpath
      have h2 := append_slash_ne (host ++ path) hhp
      rw [if_neg]
      simp [helloMux, List.lookup, h1, h2]
      constructor
      · have : (path ++ "/" == "/") = false := by simpa using h1
        rw [this]
      · have : (host ++ path ++ "/" == "/") = false := by simpa using h2
        rw [this]

theorem helloMux_handler_rooted (env : Env) (host path : String) (r : Request)
    (h : path.data.head? = some '/') :
    (match helloMux.handler host path with
      | Route.registered e =>
        ((e.h env ResponseWriter.fresh r).1, Reply.handled e.pattern (e.h env ResponseWriter.fresh r).2)
      | Route.redirect path rawQuery code => (env, Reply.redirected code path rawQuery)
      | Route.notFound => (env, Reply.notFound)) = (env, Reply.handled "/" helloResponse) := by
  obtain ⟨t, ht⟩ : ∃ t, path.data = '/' :: t := by
    cases hd : path.data with
    | nil => rw [hd] at h; simp at h
    | cons c u => rw [hd] at h; simp at h; exact ⟨u, by rw [h]⟩
  unfold ServeMux.handler ServeMux.match
  simp only [helloMux, List.lookup]
  cases hb : (path == "/") <;>
    simp [List.find?, ht, List.isPrefixOf, helloHandler_fresh]

theorem helloMux_handler_unrooted (env : Env) (host path : String) (r : Request)
    (h : path.data.head? ≠ some '/') :
    (match helloMux.handler host path with
      | Route.registered e =>
        ((e.h env ResponseWriter.fresh r).1, Reply.handled e.pattern (e.h env ResponseWriter.fresh r).2)
      | Route.redirect path rawQuery code => (env, Reply.redirected code path rawQuery)
      | Route.notFound => (env, Reply.notFound)) = (env, Reply.notFound) := by
  have hne : (path == "/") = false := by
    rw [beq_eq_false_iff_ne]
    intro hp
    apply h
    rw [hp]
    rfl
  unfold ServeMux.handler ServeMux.match
  simp only [helloMux, List.lookup, hne]
  cases hd : path.data with
  | nil => simp [List.find?, List.isPrefixOf]
  | cons c u =>
    have hc : c ≠ '/' := by
      intro hc
      apply h
      rw [hd, hc]
      rfl
    have hb : ('/' == c) = false := by
      rw [beq_eq_false_iff_ne]
      exact fun hh => hc hh.symm
    simp [List.find?, List.isPrefixOf, hb]

theorem serverHandler_helloMux (rel : MuxRelease) (env : Env) (r : Request) :
    serverHandler rel helloMux env r = (env, helloAnswer rel r) := by
  unfold serverHandler helloAnswer
  by_cases hstar : r.requestURI = "*"
  · by_cases hopt : r.method = "OPTIONS"
    · simp [hstar, hopt]
    · simp [hstar, hopt, ServeMux.ServeHTTP]
  · simp only [hstar, false_and, if_false, ServeMux.ServeHTTP]
    by_cases hcon : r.method = "CONNECT"
    · simp only [ServeMux.Handler, hcon, if_true]
      cases hroute : rel.connectRouting r with
      | toPattern =>
        simp only []
        by_cases hroot : r.path.data.head? = some '/'
        · simp only [hroot, if_true]
          exact helloMux_handler_rooted env r.host r.path r hroot
        · simp only [hroot, if_false]
          exact helloMux_handler_unrooted env r.host r.path r hroot
      | redirect code path => rfl
      | notFound => rfl
    · simp only [ServeMux.Handler, hcon, if_false, helloMux_shouldRedirect]
      by_cases hclean : cleanPath (rel.muxPath r) = rel.muxPath r
      · simp only [hclean, ne_eq, not_true_eq_false, if_false]
        have hroot : (rel.muxPath r).data.head? = some '/' := by
          have hc := cleanPath_rooted (rel.muxPath r)
          rwa [hclean] at hc
        exact helloMux_handler_rooted env r.hostname (rel.muxPath r) r hroot
      · simp [hclean]

theorem serveAll_helloMux (rel : MuxRelease) (env : Env) (rs : List Request) :
    serveAll rel helloMux env rs = (env, rs.map (helloAnswer rel)) := by
  induction rs generalizing env with
  | nil => rfl
  | cons r rest ih => simp [serveAll, serverHandler_helloMux, ih]

theorem run_serving_mux (world : World) (h : (run world).serving = true) :
    (run world).proc.mux = helloMux := by
  cases hd : world.dotenv with
  | error err =>
    rw [run_load_error world err hd] at h
    simp [Result.serving] at h
  | ok envMap =>
    by_cases hp : portAfterLoad world envMap = ""
    · rw [run_port_empty world envMap hd hp] at h
      simp [Result.serving] at h
    · rw [run_started world envMap hd hp] at h ⊢
      simp only at h ⊢
      cases hl : world.listen (":" ++ portAfterLoad world envMap) <;>
        simp [hl, Result.serving, Result.proc, Proc.emit] at h ⊢

/-! ## The claims -/

/-- Claim C1: for every request (and every state of the process), the registered handler
writes exactly the 13 bytes `Hello, World!` into the response writer in one `Write` and
nothing else: on the fresh writer the server hands it, the result is status 200 (set
implicitly by the first write), an untouched header map and that body; on any writer
it appends exactly these bytes, leaves the headers alone and never sets a status of its
own.  The format string contains no `%`, so what `Fprintf` prints is the literal. -/
theorem C1_handler_writes_hello_world (env : Env) (r : Request) (w : ResponseWriter) :
    '%' ∉ helloFormat.data
    ∧ Sprintf helloFormat [] = "Hello, World!"
    ∧ "Hello, World!".utf8ByteSize = 13
    ∧ helloHandler env ResponseWriter.fresh r
        = (env, { header := [], status := some 200, body := "Hello, World!" })
    ∧ (helloHandler env ResponseWriter.fresh r).2.finalStatus = 200
    ∧ (helloHandler env w r).2.body = w.body ++ "Hello, World!"
    ∧ (helloHandler env w r).2.header = w.header
    ∧ (helloHandler env w r).2.status = some (w.status.getD 200) := by
  have hs : Sprintf helloFormat [] = "Hello, World!" :=
    Sprintf_no_verb helloFormat (by decide)
  refine ⟨by decide, hs, by decide, rfl, rfl, ?_, ?_, ?_⟩
  · simp only [helloHandler, Fprintf, hs, ResponseWriter.Write, ResponseWriter.WriteHeader]
    cases w.status <;> rfl
  · simp only [helloHandler, Fprintf, ResponseWriter.Write, ResponseWriter.WriteHeader]
    cases w.status <;> rfl
  · simp only [helloHandler, Fprintf, ResponseWriter.Write, ResponseWriter.WriteHeader]
    cases hw : w.status <;> simp [StatusOK, hw]

/-- Counterexample to C2 as stated: with `PORT=8080` already set in the environment of
the process, a `.env` that has no `PORT` line, and likewise a `.env` whose `PORT` line
is empty, does not stop startup: the load leaves the existing variable alone, the run
passes the `PORT` check, binds the listener at `:8080` and serves. -/
theorem C2_counterexample_preset_port :
    (∃ envMap, worldPresetPort.dotenv = .ok envMap ∧ envMap "PORT" = none)
    ∧ (run worldPresetPort).exitCode = none
    ∧ (run worldPresetPort).serving = true
    ∧ fatalLines (traceOf worldPresetPort) = []
    ∧ boundAddrs (traceOf worldPresetPort) = [":8080"]
    ∧ (∃ envMap, worldPresetPortEmptyLine.dotenv = .ok envMap ∧ envMap "PORT" = some "")
    ∧ (run worldPresetPortEmptyLine).exitCode = none
    ∧ (run worldPresetPortEmptyLine).serving = true
    ∧ fatalLines (traceOf worldPresetPortEmptyLine) = []
    ∧ boundAddrs (traceOf worldPresetPortEmptyLine) = [":8080"] :=
  ⟨⟨_, rfl, rfl⟩, by decide, by decide, by decide, by decide,
    ⟨_, rfl, rfl⟩, by decide, by decide, by decide, by decide⟩

/-- Claim C2, amended: let `.env` be loaded and have no `PORT` key or give it the empty
value.  If the environment the process starts with has no non-empty `PORT` either, the
run ends with the `PORT` fatal message and exit code 1 right after reading `PORT`: no
handler is registered, no bind is attempted and no listener is bound.  If `PORT` is
already set to a non-empty value there, the load does not override it and startup
proceeds with that value: it is the value read, the handler is registered, the
confirmation line is logged and the only bind attempt is at `":"` followed by it; the
listener is bound there unless the bind fails, and the run serves exactly when the
accept loop keeps running. -/
theorem C2_missing_port_stops_startup (world : World) (envMap : String → Option String)
    (h : world.dotenv = .ok envMap)
    (hfile : envMap "PORT" = none ∨ envMap "PORT" = some "") :
    (Getenv world.environ "PORT" = "" →
        (run world).exitCode = some 1
        ∧ traceOf world = [.envLoaded true, .envRead "PORT" "", .fatal portErrorMessage]
        ∧ registrations (traceOf world) = []
        ∧ bindAttempts (traceOf world) = []
        ∧ boundAddrs (traceOf world) = [])
    ∧ (Getenv world.environ "PORT" ≠ "" →
        portAfterLoad world envMap = Getenv world.environ "PORT"
        ∧ (∃ post, traceOf world
            = [.envLoaded true, .envRead "PORT" (Getenv world.environ "PORT"),
                .handlerRegistered "/",
                .logged ("Сервер запущен на порту " ++ Getenv world.environ "PORT"),
                .listenAndServe (":" ++ Getenv world.environ "PORT")] ++ post)
        ∧ registrations (traceOf world) = ["/"]
        ∧ bindAttempts (traceOf world) = [":" ++ Getenv world.environ "PORT"]
        ∧ boundAddrs (traceOf world) =
            (match world.listen (":" ++ Getenv world.environ "PORT") with
              | .bindError _ => []
              | _ => [":" ++ Getenv world.environ "PORT"])
        ∧ ((run world).serving = true
            ↔ world.listen (":" ++ Getenv world.environ "PORT") = .servesForever)) := by
  constructor
  · intro henv
    have hp : portAfterLoad world envMap = "" := by
      unfold portAfterLoad Getenv loadFile
      unfold Getenv at henv
      cases he : world.environ "PORT" with
      | some v =>
        rw [he] at henv
        simpa using henv
      | none =>
        rcases hfile with hf | hf
        · simp [hf]
        · simp only [hf]
          split <;> rfl
    simp [traceOf, run_port_empty world envMap h hp, Result.exitCode, Result.proc,
      registrations, bindAttempts, boundAddrs]
  · intro henv
    have hp : portAfterLoad world envMap = Getenv world.environ "PORT" := by
      unfold portAfterLoad Getenv loadFile
      unfold Getenv at henv
      cases he : world.environ "PORT" with
      | some v => rfl
      | none =>
        rw [he] at henv
        exact absurd rfl henv
    have hne : portAfterLoad world envMap ≠ "" := by
      rw [hp]
      exact henv
    rw [← hp]
    refine ⟨rfl, ?_⟩
    cases hl : world.listen (":" ++ portAfterLoad world envMap) with
    | bindError e =>
      have hrun := run_bind_error world envMap e h hne hl
      exact ⟨⟨[.fatal e], by simp [traceOf, hrun, Result.proc, startedLine]⟩,
        by simp [traceOf, hrun, Result.proc, registrations],
        by simp [traceOf, hrun, Result.proc, bindAttempts],
        by simp [traceOf, hrun, Result.proc, boundAddrs],
        by simp [hrun, Result.serving]⟩
    | serveError e =>
      have hrun := run_serve_error world envMap e h hne hl
      exact ⟨⟨[.bound (":" ++ portAfterLoad world envMap), .fatal e],
          by simp [traceOf, hrun, Result.proc, startedLine]⟩,
        by simp [traceOf, hrun, Result.proc, registrations],
        by simp [traceOf, hrun, Result.proc, bindAttempts],
        by simp [traceOf, hrun, Result.proc, boundAddrs],
        by simp [hrun, Result.serving]⟩
    | servesForever =>
      have hrun := run_serves_forever world envMap h hne hl
      exact ⟨⟨[.bound (":" ++ portAfterLoad world envMap)],
          by simp [traceOf, hrun, Result.proc, startedLine]⟩,
        by simp [traceOf, hrun, Result.proc, registrations],
        by simp [traceOf, hrun, Result.proc, bindAttempts],
        by simp [traceOf, hrun, Result.proc, boundAddrs],
        by simp [hrun, Result.serving]⟩

/-- Witness of C2 (amended): a `.env` without a `PORT` line; with `PORT` not set elsewhere
the run stops at the `PORT` check, and with `PORT=3000` set in the environment the bind
is attempted at `:3000`. -/
theorem C2_missing_port_stops_startup_witness :
    (Getenv worldNoPort.environ "PORT" = ""
      ∧ (run worldNoPort).exitCode = some 1
      ∧ traceOf worldNoPort = [.envLoaded true, .envRead "PORT" "", .fatal portErrorMessage]
      ∧ registrations (traceOf worldNoPort) = []
      ∧ bindAttempts (traceOf worldNoPort) = []
      ∧ boundAddrs (traceOf worldNoPort) = [])
    ∧ (Getenv worldPreset3000.environ "PORT" = "3000"
      ∧ portAfterLoad worldPreset3000 (fun key => if key = "GREETING" then some "hi" else none)
          = Getenv worldPreset3000.environ "PORT"
      ∧ bindAttempts (traceOf worldPreset3000) = [":" ++ Getenv worldPreset3000.environ "PORT"]) :=
  ⟨⟨by decide,
      (C2_missing_port_stops_startup worldNoPort _ rfl (Or.inl rfl)).1 (by decide)⟩,
    ⟨by decide,
      ((C2_missing_port_stops_startup worldPreset3000 _ rfl (Or.inl rfl)).2 (by decide)).1,
      ((C2_missing_port_stops_startup worldPreset3000 _ rfl (Or.inl rfl)).2
        (by decide)).2.2.2.1⟩⟩

/-- Claim C3: when loading `.env` fails, the run ends with the load-failure `log.Fatal` and
exit code 1, whatever the environment contains: the trace consists of the failed load
and the fatal line only, so `PORT` is never read, no handler is registered (the
multiplexer stays empty) and no bind is attempted. -/
theorem C3_load_failure_stops_startup (world : World) (err : String)
    (h : world.dotenv = .error err) :
    (run world).exitCode = some 1
    ∧ traceOf world = [.envLoaded false, .fatal loadErrorMessage]
    ∧ envReads (traceOf world) = []
    ∧ registrations (traceOf world) = []
    ∧ (run world).proc.mux.m.length = 0
    ∧ bindAttempts (traceOf world) = []
    ∧ boundAddrs (traceOf world) = [] := by
  simp [traceOf, run_load_error world err h, Result.exitCode, Result.proc, envReads,
    registrations, bindAttempts, boundAddrs, ServeMux.empty]

/-- Witness of C3: no `.env` while `PORT=8080` is set in the environment. -/
theorem C3_load_failure_stops_startup_witness :
    Getenv worldNoFile.environ "PORT" = "8080"
    ∧ (run worldNoFile).exitCode = some 1
    ∧ traceOf worldNoFile = [.envLoaded false, .fatal loadErrorMessage]
    ∧ envReads (traceOf worldNoFile) = []
    ∧ registrations (traceOf worldNoFile) = []
    ∧ (run worldNoFile).proc.mux.m.length = 0
    ∧ bindAttempts (traceOf worldNoFile) = []
    ∧ boundAddrs (traceOf worldNoFile) = [] :=
  ⟨by decide, C3_load_failure_stops_startup worldNoFile _ rfl⟩

/-- Claim C4: after a successful load, a non-empty `PORT` value `p` is passed on verbatim:
`PORT` is read once, the only call of `ListenAndServe` gets the address `":" ++ p`, and
the listener, unless the bind fails, is bound at that address. -/
theorem C4_listen_address_is_colon_port (world : World) (envMap : String → Option String)
    (p : String) (h : world.dotenv = .ok envMap) (hp : portAfterLoad world envMap = p)
    (hne : p ≠ "") :
    envReads (traceOf world) = ["PORT"]
    ∧ Event.envRead "PORT" p ∈ traceOf world
    ∧ bindAttempts (traceOf world) = [":" ++ p]
    ∧ boundAddrs (traceOf world) =
        (match world.listen (":" ++ p) with
          | .bindError _ => []
          | _ => [":" ++ p]) := by
  subst hp
  cases hl : world.listen (":" ++ portAfterLoad world envMap) with
  | bindError e =>
    simp [traceOf, run_bind_error world envMap e h hne hl, Result.proc, envReads,
      bindAttempts, boundAddrs]
  | serveError e =>
    simp [traceOf, run_serve_error world envMap e h hne hl, Result.proc, envReads,
      bindAttempts, boundAddrs]
  | servesForever =>
    simp [traceOf, run_serves_forever world envMap h hne hl, Result.proc, envReads,
      bindAttempts, boundAddrs]

/-- Witness of C4: `.env` sets `PORT=abc`; the bind is attempted at `:abc`. -/
theorem C4_listen_address_is_colon_port_witness :
    portAfterLoad worldPortAbc (fun k => if k = "PORT" then some "abc" else none) = "abc"
    ∧ envReads (traceOf worldPortAbc) = ["PORT"]
    ∧ Event.envRead "PORT" "abc" ∈ traceOf worldPortAbc
    ∧ bindAttempts (traceOf worldPortAbc) = [":" ++ "abc"]
    ∧ boundAddrs (traceOf worldPortAbc) =
        (match worldPortAbc.listen (":" ++ "abc") with
          | .bindError _ => []
          | _ => [":" ++ "abc"]) :=
  ⟨by decide, C4_listen_address_is_colon_port worldPortAbc _ "abc" rfl (by decide) (by decide)⟩

/-- Claim C5: no run of `main` returns normally, panics or exits with code 0.  A run either
stays blocked in the accept loop or ends with exit code 1 right after a `log.Fatal`
line, which is the last event of its trace.  A failed load, an empty `PORT` and an error
returned by `ListenAndServe` (bind failure or a later failure of the accept loop) each end
the run with exit code 1. -/
theorem C5_every_exit_is_fatal (world : World) :
    (run world).returned = false
    ∧ (run world).isPanic = false
    ∧ (run world).exitCode ≠ some 0
    ∧ ((run world).serving = true
        ∨ ((run world).exitCode = some 1 ∧ ∃ pre msg, traceOf world = pre ++ [.fatal msg]))
    ∧ (∀ err, world.dotenv = .error err → (run world).exitCode = some 1)
    ∧ (∀ envMap, world.dotenv = .ok envMap → portAfterLoad world envMap = "" →
        (run world).exitCode = some 1)
    ∧ (∀ envMap err, world.dotenv = .ok envMap → portAfterLoad world envMap ≠ "" →
        (world.listen (":" ++ portAfterLoad world envMap) = .bindError err
          ∨ world.listen (":" ++ portAfterLoad world envMap) = .serveError err) →
        (run world).exitCode = some 1 ∧ fatalLines (traceOf world) = [err]) := by
  cases hd : world.dotenv with
  | error err =>
    have hrun := run_load_error world err hd
    refine ⟨?_, ?_, ?_, ?_, ?_, ?_, ?_⟩
    · simp [hrun, Result.returned]
    · simp [hrun, Result.isPanic]
    · simp [hrun, Result.exitCode]
    · exact Or.inr ⟨by simp [hrun, Result.exitCode], [.envLoaded false], loadErrorMessage,
        by simp [traceOf, hrun, Result.proc]⟩
    · intro _ _
      simp [hrun, Result.exitCode]
    · intro _ h2
      cases h2
    · intro _ _ h2
      cases h2
  | ok envMap =>
    by_cases hp : portAfterLoad world envMap = ""
    · have hrun := run_port_empty world envMap hd hp
      refine ⟨?_, ?_, ?_, ?_, ?_, ?_, ?_⟩
      · simp [hrun, Result.returned]
      · simp [hrun, Result.isPanic]
      · simp [hrun, Result.exitCode]
      · exact Or.inr ⟨by simp [hrun, Result.exitCode], [.envLoaded true, .envRead "PORT" ""],
          portErrorMessage, by simp [traceOf, hrun, Result.proc]⟩
      · intro _ h2
        cases h2
      · intro _ _ _
        simp [hrun, Result.exitCode]
      · intro envMap2 _ h2 hp2
        cases h2
        exact absurd hp hp2
    · cases hl : world.listen (":" ++ portAfterLoad world envMap) with
      | bindError e =>
        have hrun := run_bind_error world envMap e hd hp hl
        refine ⟨?_, ?_, ?_, ?_, ?_, ?_, ?_⟩
        · simp [hrun, Result.returned]
        · simp [hrun, Result.isPanic]
        · simp [hrun, Result.exitCode]
        · exact Or.inr ⟨by simp [hrun, Result.exitCode],
            [.envLoaded true, .envRead "PORT" (portAfterLoad world envMap),
              .handlerRegistered "/", .logged (startedLine (portAfterLoad world envMap)),
              .listenAndServe (":" ++ portAfterLoad world envMap)], e,
            by simp [traceOf, hrun, Result.proc]⟩
        · intro _ h2
          cases h2
        · intro _ h2 hp2
          cases h2
          exact absurd hp2 hp
        · intro envMap2 e2 h2 _ hl2
          cases h2
          rw [hl] at hl2
          have he : e = e2 := by
            rcases hl2 with h3 | h3
            · cases h3; rfl
            · cases h3
          subst he
          simp [traceOf, hrun, Result.exitCode, Result.proc, fatalLines]
      | serveError e =>
        have hrun := run_serve_error world envMap e hd hp hl
        refine ⟨?_, ?_, ?_, ?_, ?_, ?_, ?_⟩
        · simp [hrun, Result.returned]
        · simp [hrun, Result.isPanic]
        · simp [hrun, Result.exitCode]
        · exact Or.inr ⟨by simp [hrun, Result.exitCode],
            [.envLoaded true, .envRead "PORT" (portAfterLoad world envMap),
              .handlerRegistered "/", .logged (startedLine (portAfterLoad world envMap)),
              .listenAndServe (":" ++ portAfterLoad world envMap),
              .bound (":" ++ portAfterLoad world envMap)], e,
            by simp [traceOf, hrun, Result.proc]⟩
        · intro _ h2
          cases h2
        · intro _ h2 hp2
          cases h2
          exact absurd hp2 hp
        · intro envMap2 e2 h2 _ hl2
          cases h2
          rw [hl] at hl2
          have he : e = e2 := by
            rcases hl2 with h3 | h3
            · cases h3
            · cases h3; rfl
          subst he
          simp [traceOf, hrun, Result.exitCode, Result.proc, fatalLines]
      | servesForever =>
        have hrun := run_serves_forever world envMap hd hp hl
        refine ⟨?_, ?_, ?_, ?_, ?_, ?_, ?_⟩
        · simp [hrun, Result.returned]
        · simp [hrun, Result.isPanic]
        · simp [hrun, Result.exitCode]
        · exact Or.inl (by simp [hrun, Result.serving])
        · intro _ h2
          cases h2
        · intro _ h2 hp2
          cases h2
          exact absurd hp2 hp
        · intro envMap2 e2 h2 _ hl2
          cases h2
          rw [hl] at hl2
          rcases hl2 with h3 | h3 <;> cases h3

/-- Witness of C5: `PORT=8080` from `.env`, the port is in use: the bind error is the fatal
line and the exit code is 1. -/
theorem C5_every_exit_is_fatal_witness :
    (run worldPortInUse).exitCode = some 1
    ∧ fatalLines (traceOf worldPortInUse)
        = ["listen tcp :8080: bind: address already in use"] :=
  (C5_every_exit_is_fatal worldPortInUse).2.2.2.2.2.2
    (fun key => if key = "PORT" then some "8080" else none)
    "listen tcp :8080: bind: address already in use" rfl (by decide) (Or.inl rfl)

/-- Claim C6: while the server started by `main` runs, answering is idempotent and
stateless, whatever the release of the multiplexer.  After any history of earlier
requests and from any process state, `N` repetitions of a request get `N` identical
answers, the same answer the request gets as the very first one from any other state;
and handling requests leaves the process state as it was. -/
theorem C6_repeated_request_same_answer (world : World) (hs : (run world).serving = true)
    (rel : MuxRelease) (env env0 : Env) (history : List Request) (r : Request) (N : Nat) :
    (serveAll rel (run world).proc.mux env (history ++ List.replicate N r)).2.drop
          history.length
        = List.replicate N (serverHandler rel (run world).proc.mux env0 r).2
    ∧ (serveAll rel (run world).proc.mux env (history ++ List.replicate N r)).1 = env
    ∧ (serverHandler rel (run world).proc.mux env r).1 = env := by
  rw [run_serving_mux world hs]
  simp [serveAll_helloMux, serverHandler_helloMux]

/-- Witness of C6: the server started from `PORT=8080`; after a `POST`, three times
`GET /`. -/
theorem C6_repeated_request_same_answer_witness :
    (run worldServing).serving = true
    ∧ (serveAll releaseCurrent (run worldServing).proc.mux envEmpty
          ([requestPost] ++ List.replicate 3 requestRoot)).2.drop [requestPost].length
        = List.replicate 3
            (serverHandler releaseCurrent (run worldServing).proc.mux envPort8080
              requestRoot).2
    ∧ (serveAll releaseCurrent (run worldServing).proc.mux envEmpty
          ([requestPost] ++ List.replicate 3 requestRoot)).1 = envEmpty
    ∧ (serverHandler releaseCurrent (run worldServing).proc.mux envEmpty requestRoot).1
        = envEmpty :=
  ⟨by decide,
    C6_repeated_request_same_answer worldServing (by decide) releaseCurrent envEmpty
      envPort8080 [requestPost] requestRoot 3⟩

/-- Claim C9: the fatal line tells which precondition failed.  A run that exits wrote exactly
one fatal line (a run that serves wrote none).  When the load fails it is the
load-failure message and `PORT` was never read, whatever the environment holds; when
the load succeeds and `PORT` is empty it is the `PORT` message; the two messages
differ. -/
theorem C9_fatal_line_names_the_cause (world : World) :
    loadErrorMessage ≠ portErrorMessage
    ∧ ((run world).exitCode ≠ none → (fatalLines (traceOf world)).length = 1)
    ∧ ((run world).exitCode = none → fatalLines (traceOf world) = [])
    ∧ (∀ err, world.dotenv = .error err →
        fatalLines (traceOf world) = [loadErrorMessage] ∧ envReads (traceOf world) = [])
    ∧ (∀ envMap, world.dotenv = .ok envMap → portAfterLoad world envMap = "" →
        fatalLines (traceOf world) = [portErrorMessage]) := by
  refine ⟨by decide, ?_⟩
  cases hd : world.dotenv with
  | error err =>
    have hrun := run_load_error world err hd
    refine ⟨?_, ?_, ?_, ?_⟩
    · intro _
      simp [traceOf, hrun, Result.proc, fatalLines]
    · intro h
      simp [hrun, Result.exitCode] at h
    · intro _ _
      simp [traceOf, hrun, Result.proc, fatalLines, envReads]
    · intro _ h2
      cases h2
  | ok envMap =>
    by_cases hp : portAfterLoad world envMap = ""
    · have hrun := run_port_empty world envMap hd hp
      refine ⟨?_, ?_, ?_, ?_⟩
      · intro _
        simp [traceOf, hrun, Result.proc, fatalLines]
      · intro h
        simp [hrun, Result.exitCode] at h
      · intro _ h2
        cases h2
      · intro _ _ _
        simp [traceOf, hrun, Result.proc, fatalLines]
    · have hlast : ∀ envMap2, (Except.ok envMap : Except String (String → Option String))
            = Except.ok envMap2 →
          portAfterLoad world envMap2 = "" →
          fatalLines (traceOf world) = [portErrorMessage] := by
        intro envMap2 h2 hp2
        cases h2
        exact absurd hp2 hp
      cases hl : world.listen (":" ++ portAfterLoad world envMap) with
      | bindError e =>
        have hrun := run_bind_error world envMap e hd hp hl
        refine ⟨?_, ?_, ?_, hlast⟩
        · intro _
          simp [traceOf, hrun, Result.proc, fatalLines]
        · intro h
          simp [hrun, Result.exitCode] at h
        · intro _ h2
          cases h2
      | serveError e =>
        have hrun := run_serve_error world envMap e hd hp hl
        refine ⟨?_, ?_, ?_, hlast⟩
        · intro _
          simp [traceOf, hrun, Result.proc, fatalLines]
        · intro h
          simp [hrun, Result.exitCode] at h
        · intro _ h2
          cases h2
      | servesForever =>
        have hrun := run_serves_forever world envMap hd hp hl
        refine ⟨?_, ?_, ?_, hlast⟩
        · intro h
          simp [hrun, Result.exitCode] at h
        · intro _
          simp [traceOf, hrun, Result.proc, fatalLines]
        · intro _ h2
          cases h2

/-- Witness of C9: neither `.env` nor `PORT` exists; the one fatal line is the load-failure
message and `PORT` is not read. -/
theorem C9_fatal_line_names_the_cause_witness :
    fatalLines (traceOf worldNothing) = [loadErrorMessage]
    ∧ envReads (traceOf worldNothing) = [] :=
  (C9_fatal_line_names_the_cause worldNothing).2.2.2.1 "open .env: no such file or directory" rfl

/-- Claim C10: the confirmation line is logged exactly when the load succeeded and `PORT` is
not empty.  It is then the only logged line, it is the fixed text followed by the port
value verbatim, and it comes right before the call of `ListenAndServe`, the only bind
attempt.  It is logged also when the bind then fails: in that run no listener is bound
and the process exits with code 1. -/
theorem C10_started_line_precedes_bind (world : World) :
    (loggedLines (traceOf world) ≠ []
      ↔ ∃ envMap, world.dotenv = .ok envMap ∧ portAfterLoad world envMap ≠ "")
    ∧ (∀ envMap, world.dotenv = .ok envMap → portAfterLoad world envMap ≠ "" →
        loggedLines (traceOf world)
          = ["Сервер запущен на порту " ++ portAfterLoad world envMap]
        ∧ bindAttempts (traceOf world) = [":" ++ portAfterLoad world envMap]
        ∧ ∃ post, traceOf world
          = [.envLoaded true, .envRead "PORT" (portAfterLoad world envMap),
              .handlerRegistered "/",
              .logged ("Сервер запущен на порту " ++ portAfterLoad world envMap),
              .listenAndServe (":" ++ portAfterLoad world envMap)] ++ post)
    ∧ (∀ envMap err, world.dotenv = .ok envMap → portAfterLoad world envMap ≠ "" →
        world.listen (":" ++ portAfterLoad world envMap) = .bindError err →
        loggedLines (traceOf world)
          = ["Сервер запущен на порту " ++ portAfterLoad world envMap]
        ∧ boundAddrs (traceOf world) = []
        ∧ (run world).serving = false
        ∧ (run world).exitCode = some 1) := by
  cases hd : world.dotenv with
  | error err =>
    have hrun := run_load_error world err hd
    refine ⟨?_, ?_, ?_⟩
    · constructor
      · intro h
        simp [traceOf, hrun, Result.proc, loggedLines] at h
      · rintro ⟨_, h2, _⟩
        cases h2
    · intro _ h2
      cases h2
    · intro _ _ h2
      cases h2
  | ok envMap =>
    by_cases hp : portAfterLoad world envMap = ""
    · have hrun := run_port_empty world envMap hd hp
      refine ⟨?_, ?_, ?_⟩
      · constructor
        · intro h
          simp [traceOf, hrun, Result.proc, loggedLines] at h
        · rintro ⟨_, h2, hp2⟩
          cases h2
          exact absurd hp hp2
      · intro _ h2 hp2
        cases h2
        exact absurd hp hp2
      · intro _ _ h2 hp2
        cases h2
        exact absurd hp hp2
    · cases hl : world.listen (":" ++ portAfterLoad world envMap) with
      | bindError e =>
        have hrun := run_bind_error world envMap e hd hp hl
        refine ⟨?_, ?_, ?_⟩
        · constructor
          · intro _
            exact ⟨envMap, rfl, hp⟩
          · intro _
            simp [traceOf, hrun, Result.proc, loggedLines]
        · intro _ h2 _
          cases h2
          exact ⟨by simp [traceOf, hrun, Result.proc, loggedLines, startedLine],
            by simp [traceOf, hrun, Result.proc, bindAttempts],
            [.fatal e], by simp [traceOf, hrun, Result.proc, startedLine]⟩
        · intro _ _ h2 _ _
          cases h2
          exact ⟨by simp [traceOf, hrun, Result.proc, loggedLines, startedLine],
            by simp [traceOf, hrun, Result.proc, boundAddrs],
            by simp [hrun, Result.serving], by simp [hrun, Result.exitCode]⟩
      | serveError e =>
        have hrun := run_serve_error world envMap e hd hp hl
        refine ⟨?_, ?_, ?_⟩
        · constructor
          · intro _
            exact ⟨envMap, rfl, hp⟩
          · intro _
            simp [traceOf, hrun, Result.proc, loggedLines]
        · intro _ h2 _
          cases h2
          exact ⟨by simp [traceOf, hrun, Result.proc, loggedLines, startedLine],
            by simp [traceOf, hrun, Result.proc, bindAttempts],
            [.bound (":" ++ portAfterLoad world envMap), .fatal e],
            by simp [traceOf, hrun, Result.proc, startedLine]⟩
        · intro _ _ h2 _ hl2
          cases h2
          rw [hl] at hl2
          cases hl2
      | servesForever =>
        have hrun := run_serves_forever world envMap hd hp hl
        refine ⟨?_, ?_, ?_⟩
        · constructor
          · intro _
            exact ⟨envMap, rfl, hp⟩
          · intro _
            simp [traceOf, hrun, Result.proc, loggedLines]
        · intro _ h2 _
          cases h2
          exact ⟨by simp [traceOf, hrun, Result.proc, loggedLines, startedLine],
            by simp [traceOf, hrun, Result.proc, bindAttempts],
            [.bound (":" ++ portAfterLoad world envMap)],
            by simp [traceOf, hrun, Result.proc, startedLine]⟩
        · intro _ _ h2 _ hl2
          cases h2
          rw [hl] at hl2
          cases hl2

/-- Witness of C10: `PORT=8080` from `.env`, the port is in use: the confirmation line is
logged although no listener is bound and the process exits with code 1. -/
theorem C10_started_line_precedes_bind_witness :
    loggedLines (traceOf worldPortInUse) = ["Сервер запущен на порту 8080"]
    ∧ boundAddrs (traceOf worldPortInUse) = []
    ∧ (run worldPortInUse).serving = false
    ∧ (run worldPortInUse).exitCode = some 1 :=
  (C10_started_line_precedes_bind worldPortInUse).2.2
    (fun key => if key = "PORT" then some "8080" else none)
    "listen tcp :8080: bind: address already in use" rfl (by decide) rfl

end HelloServer
